import Mathlib

/-!
Verification of the Matrix Brandy BASIC interpreter core (MatrixBrandyPlotArc).

This file gives a shallow embedding, in Lean 4, of the parts of the
interpreter's C source that the specification claims talk about:

* the symbol-table hash function (src/unnamed/part_001, variables.c);
* line-number resolution for GOTO and GOSUB (mainstate.c, miscprocs.c);
* CASE table construction and dispatch (mainstate.c);
* the Basic value stack, its frames, the disposable table, the pop
  functions, discardItem, restore, dummyrestore, get_while and reset_stack
  (stack.c);
* the FOR statement's STEP handling (mainstate.c);
* SWAP (mainstate.c);
* LOCAL variable creation (mainstate.c);
* DIM byte arrays and normal arrays (mainstate.c, variables.c).

Modelling conventions, used throughout:

* machine integers are modelled as Nat or Int with explicit reductions
  mod 2 to a power where the C performs a narrowing conversion;
* float64 values are modelled as rationals; only exact comparisons with
  zero and value copies are exercised by the theorems below;
* a C function that can call error(), which performs a longjmp, is
  modelled as a function into Except Err so that an error aborts the rest
  of the statement, exactly as the longjmp does;
* token streams are modelled at token granularity: a token together with
  its inline operand bytes is one list element, so the pointer arithmetic
  tp += 1 + OFFSIZE of the source becomes an index step of one;
* the byte window basicvars.memory is a List Nat of byte values; word and
  float indirection (store_integer, store_float and their reads) are kept
  in separate maps, which is faithful whenever distinct offsets do not
  alias, and no theorem below depends on aliasing.
-/

/-- Error kinds raised through error() in the C source. Only the kinds
reachable from the embedded code appear. -/
inductive Err where
  | broken        -- ERR_BROKEN, fatal interpreter error
  | notwhile      -- ERR_NOTWHILE, not in a WHILE loop
  | silly         -- ERR_SILLY
  | linemiss      -- ERR_LINEMISS, line not found
  | lineno        -- ERR_LINENO, line number out of range
  | negdim        -- ERR_NEGDIM, negative array dimension
  | negbytedim    -- ERR_NEGBYTEDIM
  | badbytedim    -- ERR_BADBYTEDIM
  | baddim        -- ERR_BADDIM
  | dimcount      -- ERR_DIMCOUNT
  | endcasemiss   -- ERR_ENDCASE, ENDCASE missing
  | whencount     -- ERR_WHENCOUNT
  | typenum       -- ERR_TYPENUM
  | typestr       -- ERR_TYPESTR
  | varnumstr     -- ERR_VARNUMSTR
  | varnum        -- ERR_VARNUM
  | unsuitablevar -- ERR_UNSUITABLEVAR
  | noswap        -- ERR_NOSWAP
  | localmiss     -- ERR_LOCAL, LOCAL outside PROC or FN
  | endprocmiss   -- ERR_ENDPROC
  | fnreturnmiss  -- ERR_FNRETURN
  | returnmiss    -- ERR_RETURN
  | synerr        -- ERR_SYNTAX
  | corpnext      -- ERR_CORPNEXT
  | rpmiss        -- ERR_RPMISS
  | stackfull     -- ERR_STACKFULL
  | addrerr       -- ERR_ADDRESS
  | numarray      -- ERR_NUMARRAY
  | nullderef     -- dereference of a NIL pointer, undefined behaviour in C
  deriving DecidableEq, Repr

/-! ## The symbol-table hash (variables.c, function hash)

The C source is

  static int32 hash(char *p) (
    int32 hashtotal = 0;
    while (*p) (
      hashtotal = hashtotal*5^*p;
      p++;
    )
    return hashtotal;
  )

hashtotal is a 32-bit integer, so the multiplication wraps mod 2^32, and
the carat is C bitwise exclusive or, which binds weaker than
multiplication: the line parses as hashtotal = (hashtotal*5) xor (*p).
The bytes of the name are modelled as unsigned values below 256; this is
the reading on targets where plain char is unsigned. The loop stops at
the terminating NUL byte. -/

/-- One step of the hash loop: the 32-bit value (h*5) xor b. -/
def hashStep (h b : ℕ) : ℕ := (h * 5 % 2 ^ 32) ^^^ b

/-- The loop of hash from variables.c: the accumulator starts at the given
value and the scan stops at the first NUL byte. -/
def hashLoop (h : ℕ) : List ℕ → ℕ
  | [] => h
  | b :: bs => if b = 0 then h else hashLoop (hashStep h b) bs

/-- hash from variables.c on a name given as its list of bytes (the
terminating NUL is not part of the list, matching a C string's contents). -/
def varhash (name : List ℕ) : ℕ := hashLoop 0 name

/-- The reference fold of the specification: start from 0 and fold
h := (h*5) xor b over the bytes of the name, multiplication first. -/
def hashSpecFold (name : List ℕ) : ℕ :=
  name.foldl (fun h b => (h * 5 % 2 ^ 32) ^^^ b) 0

lemma hashLoop_eq_foldl (name : List ℕ) (hnz : ∀ b ∈ name, b ≠ 0) (h : ℕ) :
    hashLoop h name = name.foldl (fun h b => (h * 5 % 2 ^ 32) ^^^ b) h := by
  induction name generalizing h with
  | nil => rfl
  | cons b bs ih =>
      have hb : b ≠ 0 := hnz b (List.mem_cons_self b bs)
      simp only [hashLoop, hashStep, if_neg hb, List.foldl_cons]
      exact ih (fun c hc => hnz c (List.mem_cons_of_mem b hc)) _

/-- C8: for every name (a non-empty byte string without NUL bytes), the
symbol-table hash of variables.c equals the reference fold that starts at
0 and maps h to (h*5) xor b for each byte b in order, with the
multiplication by 5 applied before the exclusive or. -/
theorem hash_eq_spec_fold (name : List ℕ) (hne : name ≠ [])
    (hnz : ∀ b ∈ name, b ≠ 0) (hbyte : ∀ b ∈ name, b < 256) :
    varhash name = hashSpecFold name := by
  unfold varhash hashSpecFold
  exact hashLoop_eq_foldl name hnz 0

/-- Witness for C8 at the concrete name "ab%" (bytes 97, 98, 37). -/
theorem hash_eq_spec_fold_witness :
    varhash [97, 98, 37] = hashSpecFold [97, 98, 37] ∧ varhash [97, 98, 37] = 1926 :=
  ⟨hash_eq_spec_fold [97, 98, 37] (by decide) (by decide) (by decide), by decide⟩

/-! ## Line-number resolution for GOTO and GOSUB (mainstate.c, miscprocs.c)

A program is modelled as the list of its line numbers: the address of a
line is its index in the list, which stands for the address of the line's
first executable token (FIND_EXEC folded in). Index prog.length stands
for the end-of-program marker, whose GET_LINENO reads as 65535, above
MAXLINENO, so the scan of find_line always stops and a line-number
operand never matches it. -/

/-- GET_LINENO at index i of the program; past the last line this is the
end marker's number. -/
def get_lineno (prog : List ℕ) (i : ℕ) : ℕ :=
  if h : i < prog.length then prog.get ⟨i, h⟩ else 65535

/-- find_line from miscprocs.c: starting from the program start, advance
while GET_LINENO(p) is below the wanted number; the result points at the
first line whose number is greater than or equal to it (or at the end
marker). -/
def find_line : List ℕ → ℕ → ℕ
  | [], _ => 0
  | l :: ls, n => if l < n then find_line ls n + 1 else 0

/-- The operand of a GOTO or GOSUB: an unresolved literal line number
(BASIC_TOKEN_XLINENUM), a resolved address (BASIC_TOKEN_LINENUM), or a
computed expression. -/
inductive GotoOperand where
  | xlinenum (n : ℕ)
  | linenum (addr : ℕ)
  | exprline (n : ℤ)
  deriving DecidableEq, Repr

/-- set_linedest from mainstate.c: locate the line by linear scan, fail
with ERR_LINEMISS if it does not exist, otherwise store the address of
its first executable token in the token and change the opcode to the
resolved BASIC_TOKEN_LINENUM form. The returned pair is the destination
address and the rewritten token. -/
def set_linedest (prog : List ℕ) (n : ℕ) : Except Err (ℕ × GotoOperand) :=
  let dest := find_line prog n
  if get_lineno prog dest = n then .ok (dest, .linenum dest) else .error .linemiss

/-- exec_goto from mainstate.c, restricted to its destination computation:
the result is the branch destination together with the state of the
operand token after the statement (the token stream is self-modified by
set_linedest). -/
def exec_goto (prog : List ℕ) (op : GotoOperand) : Except Err (ℕ × GotoOperand) :=
  match op with
  | .linenum a => .ok (a, .linenum a)
  | .xlinenum n => set_linedest prog n
  | .exprline n =>
      if n < 0 ∨ n > 65279 then .error .lineno
      else
        let dest := find_line prog n.toNat
        if get_lineno prog dest = n.toNat then .ok (dest, .exprline n)
        else .error .linemiss

/-- exec_gosub from mainstate.c: the same destination resolution as
exec_goto followed by push_gosub; retaddr is the token address after the
GOSUB statement and the last component is the GOSUB return stack. -/
def exec_gosub (prog : List ℕ) (op : GotoOperand) (retaddr : ℕ)
    (gosubs : List ℕ) : Except Err (ℕ × GotoOperand × List ℕ) :=
  match op with
  | .linenum a => .ok (a, .linenum a, retaddr :: gosubs)
  | .xlinenum n => do
      let r ← set_linedest prog n
      .ok (r.1, r.2, retaddr :: gosubs)
  | .exprline n =>
      if n < 0 ∨ n > 65279 then .error .lineno
      else
        let dest := find_line prog n.toNat
        if get_lineno prog dest = n.toNat then .ok (dest, .exprline n, retaddr :: gosubs)
        else .error .linemiss

lemma find_line_mem (prog : List ℕ) (n : ℕ) (hsort : prog.Pairwise (· < ·))
    (hmem : n ∈ prog) : get_lineno prog (find_line prog n) = n := by
  induction prog with
  | nil => cases hmem
  | cons l ls ih =>
      rcases List.pairwise_cons.mp hsort with ⟨hl, hls⟩
      by_cases hlt : l < n
      · have hmem' : n ∈ ls := by
          rcases List.mem_cons.mp hmem with h | h
          · omega
          · exact h
        have := ih hls hmem'
        simp only [find_line, if_pos hlt, get_lineno] at this ⊢
        simpa using this
      · have hln : l = n := by
          rcases List.mem_cons.mp hmem with h | h
          · omega
          · have := hl n h
            omega
        simp [find_line, if_neg hlt, get_lineno, hln]

/-- C3: for a GOTO or GOSUB with a literal line-number operand naming an
existing line of a (line-number sorted) program, the first execution
resolves the token in place: it locates the target by the find_line
linear scan, stores the address of the line's first executable token and
rewrites the opcode to the resolved form; every subsequent execution
takes the resolved fast path and branches to the same address as the
first execution did. -/
theorem goto_gosub_resolved_same_dest (prog : List ℕ) (n : ℕ)
    (hsort : prog.Pairwise (· < ·)) (hmem : n ∈ prog) :
    ∃ d, d = find_line prog n ∧
      exec_goto prog (.xlinenum n) = .ok (d, .linenum d) ∧
      exec_goto prog (.linenum d) = .ok (d, .linenum d) ∧
      ∀ ra st, exec_gosub prog (.xlinenum n) ra st = .ok (d, .linenum d, ra :: st) ∧
        exec_gosub prog (.linenum d) ra st = .ok (d, .linenum d, ra :: st) := by
  refine ⟨find_line prog n, rfl, ?_, rfl, ?_⟩
  · simp [exec_goto, set_linedest, find_line_mem prog n hsort hmem]
  · intro ra st
    constructor
    · simp [exec_gosub, set_linedest, find_line_mem prog n hsort hmem, bind,
        Except.bind]
    · rfl

/-- Witness for C3: program with lines 10, 20, 30; GOTO 20 resolves to
address 1 and the second execution branches there as well. -/
theorem goto_gosub_resolved_same_dest_witness :
    exec_goto [10, 20, 30] (.xlinenum 20) = .ok (1, .linenum 1) ∧
    exec_goto [10, 20, 30] (.linenum 1) = .ok (1, .linenum 1) := by
  obtain ⟨d, hd, h1, h2, _⟩ := goto_gosub_resolved_same_dest [10, 20, 30] 20
    (by decide) (by decide)
  have hdv : d = 1 := by rw [hd]; decide
  exact ⟨hdv ▸ h1, hdv ▸ h2⟩

/-! ## CASE statements (mainstate.c, exec_xcase and exec_case)

The token stream after the CASE ... OF line is modelled as a list of
lines, each line being the list of its executable tokens; a token
together with its operand bytes is one element. An address is a pair
(line index, token index); token index equal to the line's length is the
NUL at the line's end, and the first executable token of line i is
(i, 0). Addresses past the last line denote the end-of-program marker.

The expression evaluator (evaluate.c, outside the supplied sources) is
abstracted: the comma-separated list of values produced by the WHEN
expressions of entry number n is supplied as a list of typed values, and
the comparison logic of exec_case is embedded on those values. -/

/-- The tokens the CASE machinery inspects; .tok stands for any other
token. -/
inductive CTok where
  | xwhen | whentok | xotherwise | otherwisetok | endcase | xcase | colon | tok
  deriving DecidableEq, Repr

abbrev CLine := List CTok

abbrev Addr := ℕ × ℕ

/-- One entry of a CASE table: the address of the WHEN's expression list
and the address of the statements after it. -/
structure WhenEntry where
  whenexpr : Addr
  whenaddr : Addr
  deriving DecidableEq, Repr

/-- A CASE table: the WHEN entries in source order plus the default
branch target. -/
structure CaseTable where
  whens : List WhenEntry
  defaultaddr : Addr
  deriving DecidableEq, Repr

/-- MAXWHENS from mainstate.c. -/
def MAXWHENS : ℕ := 500

/-- The body address of a WHEN whose line is given: skip to the first ':'
after the WHEN token, step past it, and move to the next line when the
end of this line is reached (exec_xcase, WHEN branch). -/
def whenBodyAddr (i : ℕ) (line : CLine) : Addr :=
  match (line.drop 1).findIdx? (fun t => t = CTok.colon) with
  | some k => if 1 + k + 1 < line.length then (i, 1 + k + 1) else (i + 1, 0)
  | none => (i + 1, 0)


/-- The branch target recorded for an OTHERWISE: the token after it
(stepping over one ':' and onto the next line if need be, failing with
ERR_ENDCASE when the next line is the end-of-program marker), from
exec_xcase's OTHERWISE branch. The remaining lines after this one are
passed so that AT_PROGEND can be decided. -/
def otherwiseBodyAddr (i : ℕ) (line : CLine) (rest : List CLine) :
    Except Err Addr :=
  let j := if line.get? 1 = some CTok.colon then 2 else 1
  if j < line.length then .ok (i, j)
  else
    match rest with
    | [] => .error .endcasemiss
    | _ :: _ => .ok (i + 1, 0)

/-- The effect of one line on the WHEN table and default address during
the scan of exec_xcase: a WHEN at nesting depth 1 appends an entry (or
overflows at MAXWHENS), an OTHERWISE at depth 1 records the default
target, anything else changes nothing. -/
def xcase_line_action (i : ℕ) (line : CLine) (rest : List CLine) (depth : ℕ)
    (whens : List WhenEntry) (dflt : Option Addr) :
    Except Err (List WhenEntry × Option Addr) :=
  match line.head? with
  | some CTok.xwhen | some CTok.whentok =>
      if depth = 1 then
        if whens.length = MAXWHENS then .error .whencount
        else .ok (whens ++ [⟨(i, 1), whenBodyAddr i line⟩], dflt)
      else .ok (whens, dflt)
  | some CTok.xotherwise | some CTok.otherwisetok =>
      if depth = 1 then do
        let a ← otherwiseBodyAddr i line rest
        .ok (whens, some a)
      else .ok (whens, dflt)
  | _ => .ok (whens, dflt)

/-- Depth adjustment at the end of each scanned line: any XCASE token in
the line starts a nested CASE statement (exec_xcase, nested-CASE check). -/
def xcaseBump (line : CLine) (d : ℕ) : ℕ :=
  if line.contains CTok.xcase then d + 1 else d

/-- The scan loop of exec_xcase from mainstate.c. It walks the lines
after the CASE ... OF line keeping a nesting depth; the first executable
token of each line is inspected for WHEN, OTHERWISE and ENDCASE, and the
matching (depth 1) ENDCASE ends the scan. When no top-level OTHERWISE
was found, the default target becomes the token following that ENDCASE.
The result is the finished CASE table together with the line index of
the matching ENDCASE; i is the index of the first line of the list still
to be scanned. Reaching the end of the program raises ERR_ENDCASE. -/
def exec_xcase_scan : List CLine → ℕ → ℕ → List WhenEntry → Option Addr →
    Except Err (CaseTable × ℕ)
  | [], _, _, _, _ => .error .endcasemiss
  | line :: rest, i, depth, whens, dflt =>
      if line.head? = some CTok.endcase then
        if depth = 1 then .ok (⟨whens, dflt.getD (i, 1)⟩, i)
        else exec_xcase_scan rest (i + 1) (xcaseBump line (depth - 1)) whens dflt
      else do
        let wd ← xcase_line_action i line rest depth whens dflt
        exec_xcase_scan rest (i + 1) (xcaseBump line depth) wd.1 wd.2

/-- Building the table for a CASE statement starts on the line after the
CASE ... OF line with depth 1, no entries and no default. -/
def buildCaseTable (prog : List CLine) : Except Err (CaseTable × ℕ) :=
  exec_xcase_scan prog 0 1 [] none

/-- The predicate "the scanned CASE body contains no top-level OTHERWISE
clause": it follows the exact depth discipline of the scan, and is true
when the matching ENDCASE (or the end of the program) is reached without
meeting an OTHERWISE at depth 1. -/
def noTopOtherwise : List CLine → ℕ → Bool
  | [], _ => true
  | line :: rest, depth =>
      if line.head? = some CTok.endcase then
        if depth = 1 then true
        else noTopOtherwise rest (xcaseBump line (depth - 1))
      else
        if (line.head? = some CTok.xotherwise ∨
            line.head? = some CTok.otherwisetok) ∧ depth = 1 then false
        else noTopOtherwise rest (xcaseBump line depth)

/-- Typed values as popped from the Basic stack by exec_case. -/
inductive BValue where
  | vi (n : ℤ)
  | vu8 (n : ℕ)
  | vi64 (n : ℤ)
  | vf (q : ℚ)
  | vs (s : List ℕ)
  deriving DecidableEq, Repr

/-- Comparison of the CASE selector with one WHEN value, following the
type dispatch of exec_case: integer selectors compare with any integer
(pop_anyint) or with a float after promotion, a float selector compares
with any numeric, a string selector compares byte for byte with a string
and raises a type error otherwise. -/
def valueFound (caseval whenval : BValue) : Except Err Bool :=
  match caseval with
  | .vi n =>
      match whenval with
      | .vi m => .ok (decide (m = n))
      | .vu8 m => .ok (decide ((m : ℤ) = n))
      | .vi64 m => .ok (decide (m = n))
      | .vf q => .ok (decide (q = (n : ℚ)))
      | .vs _ => .error .typenum
  | .vu8 n =>
      match whenval with
      | .vi m => .ok (decide (m = (n : ℤ)))
      | .vu8 m => .ok (decide (m = n))
      | .vi64 m => .ok (decide (m = (n : ℤ)))
      | .vf q => .ok (decide (q = (n : ℚ)))
      | .vs _ => .error .typenum
  | .vi64 n =>
      match whenval with
      | .vi m => .ok (decide (m = n))
      | .vu8 m => .ok (decide ((m : ℤ) = n))
      | .vi64 m => .ok (decide (m = n))
      | .vf q => .ok (decide (q = (n : ℚ)))
      | .vs _ => .error .typenum
  | .vf q =>
      match whenval with
      | .vi m => .ok (decide ((m : ℚ) = q))
      | .vu8 m => .ok (decide ((m : ℚ) = q))
      | .vi64 m => .ok (decide ((m : ℚ) = q))
      | .vf p => .ok (decide (p = q))
      | .vs _ => .error .typenum
  | .vs s =>
      match whenval with
      | .vs t => .ok (decide (t = s))
      | _ => .error .typestr

/-- The inner loop of exec_case over one WHEN's comma-separated value
list: stop at the first match. -/
def entryFound (caseval : BValue) : List BValue → Except Err Bool
  | [] => .ok false
  | v :: vs => do
      let f ← valueFound caseval v
      if f then .ok true else entryFound caseval vs

/-- The outer loop of exec_case over the WHEN entries (each paired with
the values its expression list produces): the first entry containing a
matching value wins. -/
def case_match_scan (caseval : BValue) :
    List (WhenEntry × List BValue) → Except Err (Option Addr)
  | [] => .ok none
  | (e, vs) :: rest => do
      let f ← entryFound caseval vs
      if f then .ok (some e.whenaddr) else case_match_scan caseval rest

/-- exec_case from mainstate.c on the resolved table: branch to the
matching WHEN's body, and to the default target when no WHEN matches. -/
def exec_case (tb : CaseTable) (caseval : BValue) (vals : List (List BValue)) :
    Except Err Addr := do
  let r ← case_match_scan caseval (tb.whens.zip vals)
  .ok (r.getD tb.defaultaddr)

lemma xcase_line_action_keeps_none (i : ℕ) (line : CLine) (rest : List CLine)
    (depth : ℕ) (whens : List WhenEntry) (wd : List WhenEntry × Option Addr)
    (hot : ¬((line.head? = some CTok.xotherwise ∨
        line.head? = some CTok.otherwisetok) ∧ depth = 1))
    (h : xcase_line_action i line rest depth whens none = .ok wd) :
    wd.2 = none := by
  cases hh : line.head? with
  | none =>
      simp only [xcase_line_action, hh, Except.ok.injEq] at h
      rw [← h]
  | some c =>
      cases c <;> simp only [xcase_line_action, hh, Except.ok.injEq] at h
      case xwhen | whentok =>
        split at h
        · split at h
          · cases h
          · simp only [Except.ok.injEq] at h
            rw [← h]
        · simp only [Except.ok.injEq] at h
          rw [← h]
      case xotherwise =>
        split at h
        · exact absurd ⟨Or.inl hh, by assumption⟩ hot
        · simp only [Except.ok.injEq] at h
          rw [← h]
      case otherwisetok =>
        split at h
        · exact absurd ⟨Or.inr hh, by assumption⟩ hot
        · simp only [Except.ok.injEq] at h
          rw [← h]
      case endcase | xcase | colon | tok =>
        rw [← h]


lemma exec_xcase_scan_none_default (rest : List CLine) :
    ∀ i depth whens tb ci,
      noTopOtherwise rest depth = true →
      exec_xcase_scan rest i depth whens none = .ok (tb, ci) →
      tb.defaultaddr = (ci, 1) ∧
        ∃ j line, ci = i + j ∧ rest.get? j = some line ∧
          line.head? = some CTok.endcase := by
  induction rest with
  | nil =>
      intro i depth whens tb ci hno hscan
      cases hscan
  | cons line rest ih =>
      intro i depth whens tb ci hno hscan
      rw [exec_xcase_scan] at hscan
      rw [noTopOtherwise] at hno
      by_cases hec : line.head? = some CTok.endcase
      · rw [if_pos hec] at hscan hno
        by_cases hd1 : depth = 1
        · rw [if_pos hd1] at hscan
          have h1 : (⟨whens, (Option.getD none (i, 1))⟩ : CaseTable) = tb ∧ i = ci := by
            have := hscan
            rw [Except.ok.injEq, Prod.mk.injEq] at this
            exact this
          obtain ⟨htb, hci⟩ := h1
          subst hci
          refine ⟨by rw [← htb]; rfl, 0, line, by omega, rfl, hec⟩
        · rw [if_neg hd1] at hscan hno
          obtain ⟨hda, j, l, hcij, hget, hhead⟩ := ih _ _ _ _ _ hno hscan
          exact ⟨hda, j + 1, l, by omega, hget, hhead⟩
      · rw [if_neg hec] at hscan hno
        by_cases hot : (line.head? = some CTok.xotherwise ∨
            line.head? = some CTok.otherwisetok) ∧ depth = 1
        · rw [if_pos hot] at hno; cases hno
        · rw [if_neg hot] at hno
          cases haction : xcase_line_action i line rest depth whens none with
          | error e =>
              rw [haction] at hscan
              simp only [bind, Except.bind] at hscan
              cases hscan
          | ok wd =>
              rw [haction] at hscan
              simp only [bind, Except.bind] at hscan
              have hwd2 := xcase_line_action_keeps_none i line rest depth whens
                wd hot haction
              rw [hwd2] at hscan
              obtain ⟨hda, j, l, hcij, hget, hhead⟩ := ih _ _ _ _ _ hno hscan
              exact ⟨hda, j + 1, l, by omega, hget, hhead⟩

/-- C6: for a resolved CASE statement whose body contains no top-level
OTHERWISE clause, the table built by exec_xcase records as default target
the token immediately following the (depth-matching) ENDCASE line that
closed the scan, and a selector matching none of the WHEN expression
lists makes exec_case branch to exactly that default target. -/
theorem case_no_match_goes_after_endcase (prog : List CLine) (tb : CaseTable)
    (ci : ℕ) (caseval : BValue) (vals : List (List BValue))
    (hscan : buildCaseTable prog = .ok (tb, ci))
    (hno : noTopOtherwise prog 1 = true)
    (hnomatch : case_match_scan caseval (tb.whens.zip vals) = .ok none) :
    exec_case tb caseval vals = .ok tb.defaultaddr ∧
      tb.defaultaddr = (ci, 1) ∧
      ∃ line, prog.get? ci = some line ∧ line.head? = some CTok.endcase := by
  obtain ⟨hda, j, line, hcij, hget, hhead⟩ :=
    exec_xcase_scan_none_default prog 0 1 [] tb ci hno hscan
  refine ⟨?_, hda, line, ?_, hhead⟩
  · unfold exec_case
    rw [hnomatch]
    rfl
  · rw [hcij]
    simpa using hget

/-- Witness for C6: two lines, WHEN 1 : body then ENDCASE, with selector
2; the fall-through target is the token after the ENDCASE, address (1, 1). -/
theorem case_no_match_goes_after_endcase_witness :
    exec_case ⟨[⟨(0, 1), (0, 3)⟩], (1, 1)⟩ (BValue.vi 2) [[BValue.vi 1]] =
        .ok (1, 1) ∧
      buildCaseTable [[CTok.whentok, CTok.tok, CTok.colon, CTok.tok],
          [CTok.endcase]] =
        .ok (⟨[⟨(0, 1), (0, 3)⟩], (1, 1)⟩, 1) := by
  have h := case_no_match_goes_after_endcase
    [[CTok.whentok, CTok.tok, CTok.colon, CTok.tok], [CTok.endcase]]
    ⟨[⟨(0, 1), (0, 3)⟩], (1, 1)⟩ 1 (BValue.vi 2) [[BValue.vi 1]]
    rfl (by decide) rfl
  exact ⟨h.1, rfl⟩

/-! ## The Basic value stack (stack.c)

The stack is modelled as a list of typed frames, the head being the top
of the downward-growing stack; basicvars.stacktop corresponds to the
whole list, and a frame together with its payload is one element (so
popping ALIGNSIZE(...) bytes is dropping the head). The permanently
present STACK_UNKNOWN sentinel written by init_stack is the frame at the
bottom. The variables a frame can reference live in a Store with one
map per variable kind, plus the byte window (a list of bytes), the
word and float indirection cells, and the string heap. alloc_string
returns fresh payload identifiers; free_string records the freed
identifier. -/

/-- The variable type codes of basicdefs.h that the embedded statements
dispatch on (varflags and lvalue typeinfo). -/
inductive VarType where
  | intword | uint8 | intlong | float | stringdol
  | intbyteptr | intwordptr | floatptr | dolstrptr
  | intarray | uint8array | int64array | floatarray | strarray
  deriving DecidableEq, Repr

/-- A string descriptor: length and payload identifier into the string
heap. -/
structure BasicString where
  stringlen : ℕ
  stringaddr : ℕ
  deriving DecidableEq, Repr

/-- An lvalue as produced by get_lvalue: the type information and the
address (a variable slot for variable kinds, a byte-window offset for
the indirection kinds). -/
structure Lvalue where
  typeinfo : VarType
  addr : ℕ
  deriving DecidableEq, Repr

/-- A value saved in a LOCAL or RETPARM stack frame (the value union of
stack_local). -/
inductive SavedVal where
  | ival (n : ℤ)
  | u8val (n : ℕ)
  | i64val (n : ℤ)
  | fval (q : ℚ)
  | sval (d : BasicString)
  | aval (a : Option ℕ)
  deriving DecidableEq, Repr

/-- The variable store: basicvars.staticvars and the symbol table's
payloads flattened into one map per variable kind, plus the byte window,
the word and float indirection cells and the string heap. -/
structure Store where
  ints : ℕ → ℤ
  bytes : ℕ → ℕ
  longs : ℕ → ℤ
  floats : ℕ → ℚ
  strs : ℕ → BasicString
  arrs : ℕ → Option ℕ
  descParent : ℕ → ℕ
  memory : List ℕ
  wordmem : ℕ → ℤ
  floatmem : ℕ → ℚ
  sheap : ℕ → List ℕ
  nextid : ℕ
  freed : List ℕ

/-- TOINT of basicdefs.h: float to 32-bit integer conversion; the C cast
truncates toward zero. No theorem below depends on the rounding mode. -/
def TOINT (q : ℚ) : ℤ := if 0 ≤ q then q.floor else q.ceil

/-- TOFLOAT of basicdefs.h. -/
def TOFLOAT (n : ℤ) : ℚ := (n : ℚ)

/-- A C assignment of a wider integer to a uint8 slot wraps mod 256. -/
def wrap8 (n : ℤ) : ℕ := (n % 256).toNat

/-- alloc_string from strings.c (outside the supplied sources): the
string heap hands out a fresh payload identifier holding the given
bytes. Modelled from the spec: the string heap manages variable-length
payloads and alloc_string(n) returns a writable buffer of n bytes. -/
def alloc_string (content : List ℕ) (s : Store) : ℕ × Store :=
  (s.nextid,
    { s with
      sheap := fun i => if i = s.nextid then content else s.sheap i
      nextid := s.nextid + 1 })

/-- free_string from strings.c (outside the supplied sources): the
payload is returned to the string heap. Modelled from the spec:
free_string(desc) returns the payload; the model records the freed
identifier. -/
def free_string (d : BasicString) (s : Store) : Store :=
  { s with freed := d.stringaddr :: s.freed }

/-- get_stringlen of a '$ string' in the byte window: the number of
bytes before the first carriage-return terminator. -/
def get_stringlen (mem : List ℕ) (off : ℕ) : ℕ :=
  ((mem.drop off).takeWhile (fun b => b ≠ 13)).length

/-- readBytes mem off n is the n bytes at offset off. -/
def readBytes (mem : List ℕ) (off n : ℕ) : List ℕ :=
  (mem.drop off).take n

/-- writeBytes mem off bs overwrites the bytes at offset off with bs
(memmove into the byte window). -/
def writeBytes (mem : List ℕ) (off : ℕ) (bs : List ℕ) : List ℕ :=
  mem.take off ++ bs ++ mem.drop (off + bs.length)

/-- The frames of the Basic stack, one constructor per stackitem kind of
basicdefs.h, each carrying its payload. -/
inductive Frame where
  | unknownf
  | lvaluef (lv : Lvalue)
  | uint8f (v : ℕ)
  | intf (v : ℤ)
  | int64f (v : ℤ)
  | floatf (v : ℚ)
  | stringf (d : BasicString)
  | strtempf (d : BasicString)
  | intarrayf (a : Option ℕ)
  | iatempf
  | uint8arrayf (a : Option ℕ)
  | u8atempf
  | int64arrayf (a : Option ℕ)
  | i64atempf
  | floatarrayf (a : Option ℕ)
  | fatempf
  | strarrayf (a : Option ℕ)
  | satempf
  | locarrayf (size : ℕ)
  | locstringf (strings : List BasicString)
  | gosubf (retaddr : ℕ)
  | procf (retaddr : ℕ) (parmcount : ℕ)
  | fnf (retaddr : ℕ) (parmcount : ℕ)
  | localf (details : Lvalue) (value : SavedVal)
  | retparmf (retdetails : Lvalue) (details : Lvalue) (value : SavedVal)
  | whilef (whilexpr : ℕ) (whileaddr : ℕ)
  | repeatf (repeataddr : ℕ)
  | intforf (forvar : Lvalue) (foraddr : ℕ) (limit step : ℤ) (simple : Bool)
  | int64forf (forvar : Lvalue) (foraddr : ℕ) (limit step : ℤ) (simple : Bool)
  | floatforf (forvar : Lvalue) (foraddr : ℕ) (limit step : ℚ) (simple : Bool)
  | errorf (handler : ℕ)
  | dataf (address : ℕ)
  | opstackf
  | restartf
  deriving DecidableEq, Repr

/-- The stackitem enumeration of basicdefs.h (tag values 0 to 0x22, in
the order documented by the entrysize table of stack.c). -/
inductive StackItem where
  | unknowntag | lvaluetag | uint8tag | inttag | int64tag | floattag
  | stringtag | strtemptag | intarraytag | iatemptag | uint8arraytag
  | u8atemptag | int64arraytag | i64atemptag | floatarraytag | fatemptag
  | strarraytag | satemptag | locarraytag | locstringtag | gosubtag
  | proctag | fntag | localtag | retparmtag | whiletag | repeattag
  | intfortag | int64fortag | floatfortag | errortag | datatag
  | opstacktag | restarttag
  deriving DecidableEq, Repr

/-- The numeric value of each stackitem tag (STACK_UNKNOWN = 0 up to
STACK_RESTART = 0x21, with STACK_HIGHEST = 0x22 one past the last). -/
def StackItem.code : StackItem → ℕ
  | .unknowntag => 0x00
  | .lvaluetag => 0x01
  | .uint8tag => 0x02
  | .inttag => 0x03
  | .int64tag => 0x04
  | .floattag => 0x05
  | .stringtag => 0x06
  | .strtemptag => 0x07
  | .intarraytag => 0x08
  | .iatemptag => 0x09
  | .uint8arraytag => 0x0A
  | .u8atemptag => 0x0B
  | .int64arraytag => 0x0C
  | .i64atemptag => 0x0D
  | .floatarraytag => 0x0E
  | .fatemptag => 0x0F
  | .strarraytag => 0x10
  | .satemptag => 0x11
  | .locarraytag => 0x12
  | .locstringtag => 0x13
  | .gosubtag => 0x14
  | .proctag => 0x15
  | .fntag => 0x16
  | .localtag => 0x17
  | .retparmtag => 0x18
  | .whiletag => 0x19
  | .repeattag => 0x1A
  | .intfortag => 0x1B
  | .int64fortag => 0x1C
  | .floatfortag => 0x1D
  | .errortag => 0x1E
  | .datatag => 0x1F
  | .opstacktag => 0x20
  | .restarttag => 0x21

/-- The disposable table of stack.c, copied entry for entry (35 entries,
indexed by the stackitem value; the last entry is STACK_HIGHEST):

  FALSE, TRUE,  TRUE,  TRUE,  TRUE,  TRUE,  TRUE,  TRUE,
  TRUE,  TRUE,  TRUE,  TRUE,  TRUE,  TRUE,  TRUE,  TRUE,
  TRUE,  TRUE,  TRUE,  TRUE,  TRUE,  TRUE,  TRUE,  TRUE,
  TRUE,  FALSE, FALSE, FALSE, FALSE, FALSE, TRUE,  TRUE,
  TRUE,  TRUE,  TRUE
-/
def disposableTable : List Bool :=
  [false, true,  true,  true,  true,  true,  true,  true,
   true,  true,  true,  true,  true,  true,  true,  true,
   true,  true,  true,  true,  true,  true,  true,  true,
   true,  false, false, false, false, false, true,  true,
   true,  true,  true]

/-- disposable[item] of stack.c. -/
def disposable (item : StackItem) : Bool :=
  disposableTable.getD item.code false

/-- The tag of a frame (the itemtype field written by the push
functions). -/
def Frame.tag : Frame → StackItem
  | .unknownf => .unknowntag
  | .lvaluef _ => .lvaluetag
  | .uint8f _ => .uint8tag
  | .intf _ => .inttag
  | .int64f _ => .int64tag
  | .floatf _ => .floattag
  | .stringf _ => .stringtag
  | .strtempf _ => .strtemptag
  | .intarrayf _ => .intarraytag
  | .iatempf => .iatemptag
  | .uint8arrayf _ => .uint8arraytag
  | .u8atempf => .u8atemptag
  | .int64arrayf _ => .int64arraytag
  | .i64atempf => .i64atemptag
  | .floatarrayf _ => .floatarraytag
  | .fatempf => .fatemptag
  | .strarrayf _ => .strarraytag
  | .satempf => .satemptag
  | .locarrayf _ => .locarraytag
  | .locstringf _ => .locstringtag
  | .gosubf _ => .gosubtag
  | .procf _ _ => .proctag
  | .fnf _ _ => .fntag
  | .localf _ _ => .localtag
  | .retparmf _ _ _ => .retparmtag
  | .whilef _ _ => .whiletag
  | .repeatf _ => .repeattag
  | .intforf _ _ _ _ _ => .intfortag
  | .int64forf _ _ _ _ _ => .int64fortag
  | .floatforf _ _ _ _ _ => .floatfortag
  | .errorf _ => .errortag
  | .dataf _ => .datatag
  | .opstackf => .opstacktag
  | .restartf => .restarttag

/-- The interpreter state the stack functions touch: the variable store,
the stack itself, the active error handler block and the DATA pointer
(basicvars.error_handler and basicvars.datacur). -/
structure BasicState where
  store : Store
  stack : List Frame
  error_handler : ℕ
  datacur : ℕ

/-- GET_TOPITEM of stack.h: the tag of the frame at the top of the
stack. A state always contains the bottom sentinel, so the empty-stack
case (reported as STACK_UNKNOWN) is unreachable in executions. -/
def GET_TOPITEM (st : BasicState) : StackItem :=
  match st.stack with
  | [] => .unknowntag
  | f :: _ => f.tag

/-! ### The pop functions (stack.c)

Each pop is written with the exact check structure of its C original:
pop_int, pop_uint8, pop_int64 and pop_float verify that the top tag
matches and raise ERR_BROKEN otherwise; pop_proc, pop_fn and pop_gosub
verify the tag but raise ERR_ENDPROC, ERR_FNRETURN and ERR_RETURN;
pop_string, pop_while, pop_repeat, pop_for, pop_data and pop_error
perform no check at all and simply adjust the stack pointer (on a
mismatched frame the C reads reinterpreted bytes; the model returns a
zero descriptor or address in that case). All pops share the
Except-valued shape so that the presence or absence of a raised error
can be stated uniformly; the uncheck variants never produce an error. -/

/-- pop_int from stack.c. -/
def pop_int (st : BasicState) : Except Err (ℤ × BasicState) :=
  match st.stack with
  | Frame.intf v :: rest => .ok (v, { st with stack := rest })
  | _ => .error .broken

/-- pop_uint8 from stack.c. -/
def pop_uint8 (st : BasicState) : Except Err (ℕ × BasicState) :=
  match st.stack with
  | Frame.uint8f v :: rest => .ok (v, { st with stack := rest })
  | _ => .error .broken

/-- pop_int64 from stack.c. -/
def pop_int64 (st : BasicState) : Except Err (ℤ × BasicState) :=
  match st.stack with
  | Frame.int64f v :: rest => .ok (v, { st with stack := rest })
  | _ => .error .broken

/-- pop_float from stack.c. -/
def pop_float (st : BasicState) : Except Err (ℚ × BasicState) :=
  match st.stack with
  | Frame.floatf v :: rest => .ok (v, { st with stack := rest })
  | _ => .error .broken

/-- pop_string from stack.c: no tag check; the descriptor at the top is
returned and the stack pointer stepped, whatever the top frame is. -/
def pop_string (st : BasicState) : Except Err (BasicString × BasicState) :=
  match st.stack with
  | Frame.stringf d :: rest => .ok (d, { st with stack := rest })
  | Frame.strtempf d :: rest => .ok (d, { st with stack := rest })
  | _ :: rest => .ok (⟨0, 0⟩, { st with stack := rest })
  | [] => .ok (⟨0, 0⟩, st)

/-- pop_proc from stack.c: tag checked, but a mismatch raises
ERR_ENDPROC, not the fatal engine error. -/
def pop_proc (st : BasicState) : Except Err ((ℕ × ℕ) × BasicState) :=
  match st.stack with
  | Frame.procf ret pc :: rest => .ok ((ret, pc), { st with stack := rest })
  | _ => .error .endprocmiss

/-- pop_fn from stack.c: tag checked, mismatch raises ERR_FNRETURN. -/
def pop_fn (st : BasicState) : Except Err ((ℕ × ℕ) × BasicState) :=
  match st.stack with
  | Frame.fnf ret pc :: rest => .ok ((ret, pc), { st with stack := rest })
  | _ => .error .fnreturnmiss

/-- pop_gosub from stack.c: tag checked, mismatch raises ERR_RETURN. -/
def pop_gosub (st : BasicState) : Except Err (ℕ × BasicState) :=
  match st.stack with
  | Frame.gosubf ret :: rest => .ok (ret, { st with stack := rest })
  | _ => .error .returnmiss

/-- pop_while from stack.c: no tag check, the stack pointer is stepped
by the size of a WHILE block unconditionally. -/
def pop_while (st : BasicState) : Except Err BasicState :=
  match st.stack with
  | _ :: rest => .ok { st with stack := rest }
  | [] => .ok st

/-- pop_repeat from stack.c: no tag check. -/
def pop_repeat (st : BasicState) : Except Err BasicState :=
  match st.stack with
  | _ :: rest => .ok { st with stack := rest }
  | [] => .ok st

/-- pop_for from stack.c: no tag check. -/
def pop_for (st : BasicState) : Except Err BasicState :=
  match st.stack with
  | _ :: rest => .ok { st with stack := rest }
  | [] => .ok st

/-- pop_data from stack.c: no tag check; the stored DATA pointer is
returned. -/
def pop_data (st : BasicState) : Except Err (ℕ × BasicState) :=
  match st.stack with
  | Frame.dataf a :: rest => .ok (a, { st with stack := rest })
  | _ :: rest => .ok (0, { st with stack := rest })
  | [] => .ok (0, st)

/-- pop_error from stack.c: no tag check; the stored handler block is
returned. -/
def pop_error (st : BasicState) : Except Err (ℕ × BasicState) :=
  match st.stack with
  | Frame.errorf h :: rest => .ok (h, { st with stack := rest })
  | _ :: rest => .ok (0, { st with stack := rest })
  | [] => .ok (0, st)

/-! ### restore, dummyrestore and restore_retparm (stack.c) -/

/-- The switch of restore from stack.c for a single LOCAL save block:
write the saved value back through the saved lvalue. A saved value whose
shape does not match the type information corresponds to reading the
wrong member of the C union, which the running interpreter never does;
such a state is mapped to the ERR_BROKEN of the switch default. -/
def restoreVar (lv : Lvalue) (sv : SavedVal) (s : Store) : Except Err Store :=
  match lv.typeinfo, sv with
  | .intword, .ival v =>
      .ok { s with ints := fun a => if a = lv.addr then v else s.ints a }
  | .uint8, .u8val v =>
      .ok { s with bytes := fun a => if a = lv.addr then v else s.bytes a }
  | .intlong, .i64val v =>
      .ok { s with longs := fun a => if a = lv.addr then v else s.longs a }
  | .float, .fval q =>
      .ok { s with floats := fun a => if a = lv.addr then q else s.floats a }
  | .stringdol, .sval d =>
      let s1 := free_string (s.strs lv.addr) s
      .ok { s1 with strs := fun a => if a = lv.addr then d else s1.strs a }
  | .intbyteptr, .ival v =>
      .ok { s with memory := s.memory.set lv.addr (wrap8 v) }
  | .intwordptr, .ival v =>
      .ok { s with wordmem := fun a => if a = lv.addr then v else s.wordmem a }
  | .floatptr, .fval q =>
      .ok { s with floatmem := fun a => if a = lv.addr then q else s.floatmem a }
  | .dolstrptr, .sval d =>
      let s1 := { s with
        memory := writeBytes s.memory lv.addr ((s.sheap d.stringaddr).take d.stringlen) }
      .ok (free_string d s1)
  | .intarray, .aval a =>
      .ok { s with arrs := fun i => if i = lv.addr then a else s.arrs i }
  | .uint8array, .aval a =>
      .ok { s with arrs := fun i => if i = lv.addr then a else s.arrs i }
  | .int64array, .aval a =>
      .ok { s with arrs := fun i => if i = lv.addr then a else s.arrs i }
  | .floatarray, .aval a =>
      .ok { s with arrs := fun i => if i = lv.addr then a else s.arrs i }
  | .strarray, .aval a =>
      .ok { s with arrs := fun i => if i = lv.addr then a else s.arrs i }
  | _, _ => .error .broken

/-- The value captured from the local variable by restore_retparm before
the returned value is stored: the C keeps vartype together with
intvalue, floatvalue or stringvalue; cnone is the array case, which
captures nothing. -/
inductive RetCaptured where
  | ci (n : ℤ)
  | cf (q : ℚ)
  | cs (d : BasicString)
  | cdol (d : BasicString)
  | cnone
  deriving DecidableEq, Repr

/-- The first switch of restore_retparm from stack.c: fetch the current
value of the local variable and restore the local variable to its saved
value. The C switch has no VAR_UINT8 or VAR_INTLONG case, so those
types fall into the ERR_BROKEN default. -/
def retparm_fetch (lv : Lvalue) (sv : SavedVal) (s : Store) :
    Except Err (RetCaptured × Store) :=
  match lv.typeinfo, sv with
  | .intword, .ival v =>
      .ok (.ci (s.ints lv.addr),
        { s with ints := fun a => if a = lv.addr then v else s.ints a })
  | .float, .fval q =>
      .ok (.cf (s.floats lv.addr),
        { s with floats := fun a => if a = lv.addr then q else s.floats a })
  | .stringdol, .sval d =>
      .ok (.cs (s.strs lv.addr),
        { s with strs := fun a => if a = lv.addr then d else s.strs a })
  | .intbyteptr, .ival v =>
      .ok (.ci (s.memory.getD lv.addr 0),
        { s with memory := s.memory.set lv.addr (wrap8 v) })
  | .intwordptr, .ival v =>
      .ok (.ci (s.wordmem lv.addr),
        { s with wordmem := fun a => if a = lv.addr then v else s.wordmem a })
  | .floatptr, .fval q =>
      .ok (.cf (s.floatmem lv.addr),
        { s with floatmem := fun a => if a = lv.addr then q else s.floatmem a })
  | .dolstrptr, .sval d =>
      let len := get_stringlen s.memory lv.addr
      let ns := alloc_string (readBytes s.memory lv.addr len) s
      let s2 := { ns.2 with
        memory := writeBytes ns.2.memory lv.addr
          ((ns.2.sheap d.stringaddr).take d.stringlen) }
      .ok (.cdol ⟨len, ns.1⟩, free_string d s2)
  | .intarray, _ => .ok (.cnone, s)
  | .uint8array, _ => .ok (.cnone, s)
  | .int64array, _ => .ok (.cnone, s)
  | .floatarray, _ => .ok (.cnone, s)
  | .strarray, _ => .ok (.cnone, s)
  | _, _ => .error .broken

/-- The second switch of restore_retparm from stack.c: store the value
captured from the local variable through the RETURN destination lvalue.
With a captured value of a different shape the C uses its zero-initialised
locals, which the model mirrors; VAR_UINT8ARRAY and VAR_INT64ARRAY are
absent from the C case list and fall into the ERR_BROKEN default. -/
def retparm_storeback (rd : Lvalue) (capt : RetCaptured) (s : Store) :
    Except Err Store :=
  let iv : ℤ := match capt with
    | .ci n => n
    | .cf q => TOINT q
    | _ => 0
  let fv : ℚ := match capt with
    | .ci n => TOFLOAT n
    | .cf q => q
    | _ => 0
  let sd : BasicString := match capt with
    | .cs d => d
    | .cdol d => d
    | _ => ⟨0, 0⟩
  match rd.typeinfo with
  | .intword => .ok { s with ints := fun a => if a = rd.addr then iv else s.ints a }
  | .float => .ok { s with floats := fun a => if a = rd.addr then fv else s.floats a }
  | .stringdol =>
      let s1 := free_string (s.strs rd.addr) s
      .ok { s1 with strs := fun a => if a = rd.addr then sd else s1.strs a }
  | .intbyteptr => .ok { s with memory := s.memory.set rd.addr (wrap8 iv) }
  | .intwordptr => .ok { s with wordmem := fun a => if a = rd.addr then iv else s.wordmem a }
  | .floatptr => .ok { s with floatmem := fun a => if a = rd.addr then fv else s.floatmem a }
  | .dolstrptr =>
      let s1 := if 0 < sd.stringlen then
          { s with memory := (writeBytes s.memory rd.addr
              ((s.sheap sd.stringaddr).take sd.stringlen)) }
        else s
      let s2 := match capt with
        | .cs _ => { s1 with memory := s1.memory.set (rd.addr + sd.stringlen) 13 }
        | _ => s1
      .ok (free_string sd s2)
  | .intarray => .ok s
  | .floatarray => .ok s
  | .strarray => .ok s
  | _ => .error .broken

mutual

/-- restore from stack.c: restore parmcount saved variables from LOCAL
blocks at the top of the stack, continuing into restore_retparm when a
RETURN-parameter block is met. -/
def restore : ℕ → BasicState → Except Err BasicState
  | 0, st => .ok st
  | pc + 1, st =>
      match st.stack with
      | Frame.localf lv sv :: rest => do
          let s ← restoreVar lv sv st.store
          let st1 : BasicState := { st with store := s, stack := rest }
          if pc > 0 then
            if GET_TOPITEM st1 = .localtag then restore pc st1
            else if GET_TOPITEM st1 = .retparmtag then restore_retparm pc st1
            else .ok st1
          else .ok st1
      | _ => .error .broken

/-- dummyrestore from stack.c: unstack parmcount LOCAL-sized blocks
without restoring the saved variables, continuing into restore_retparm
when a RETURN-parameter block is met. -/
def dummyrestore : ℕ → BasicState → Except Err BasicState
  | 0, st => .ok st
  | pc + 1, st =>
      match st.stack with
      | _ :: rest =>
          let st1 : BasicState := { st with stack := rest }
          if pc > 0 then
            if GET_TOPITEM st1 = .localtag then dummyrestore pc st1
            else if GET_TOPITEM st1 = .retparmtag then restore_retparm pc st1
            else .ok st1
          else .ok st1
      | [] => .error .broken

/-- restore_retparm from stack.c: save the parameter's current value,
restore the local variable, deal with the remaining parameters, then
store the captured value through the RETURN destination. -/
def restore_retparm : ℕ → BasicState → Except Err BasicState
  | 0, st => .ok st
  | pc + 1, st =>
      match st.stack with
      | Frame.retparmf rd lv sv :: rest => do
          let c ← retparm_fetch lv sv st.store
          let st1 : BasicState := { st with store := c.2, stack := rest }
          let st2 ←
            if pc > 0 then
              if GET_TOPITEM st1 = .localtag then restore pc st1
              else restore_retparm pc st1
            else .ok st1
          let s3 ← retparm_storeback rd c.1 st2.store
          .ok { st2 with store := s3 }
      | _ => .error .broken

end

/-- The default branch of the switch in discard (stack.c): entries that
need no cleanup are dropped by stepping the stack pointer by the entry
size, which in the frame-list model is dropping the top frame. -/
def discard_default (st : BasicState) : Except Err BasicState :=
  match st.stack with
  | _ :: rest => .ok { st with stack := rest }
  | [] => .error .broken

/-- discardItem from stack.c: remove the top item from the Basic stack,
carrying out any work needed to undo its effects. item is the tag the
caller read with GET_TOPITEM; restorevars selects between restore and
dummyrestore for LOCAL blocks. -/
def discardItem (item : StackItem) (restorevars : Bool) (st : BasicState) :
    Except Err BasicState :=
  match item with
  | .strtemptag => do
      let r ← pop_string st
      .ok { r.2 with store := free_string r.1 r.2.store }
  | .localtag => if restorevars then restore 1 st else dummyrestore 1 st
  | .retparmtag => restore_retparm 1 st
  | .gosubtag => do
      let r ← pop_gosub st
      .ok r.2
  | .proctag => do
      let r ← pop_proc st
      .ok r.2
  | .fntag => do
      let r ← pop_fn st
      .ok r.2
  | .errortag => do
      let r ← pop_error st
      .ok { r.2 with error_handler := r.1 }
  | .datatag => do
      let r ← pop_data st
      .ok { r.2 with datacur := r.1 }
  | .locarraytag =>
      match st.stack with
      | _ :: rest => .ok { st with stack := rest }
      | [] => .error .broken
  | .locstringtag =>
      match st.stack with
      | Frame.locstringf ds :: rest =>
          .ok { st with
                  stack := rest
                  store := { st.store with
                    freed := (ds.map (fun d => d.stringaddr)) ++ st.store.freed } }
      | _ :: rest => .ok { st with stack := rest }
      | [] => .error .broken
  | .unknowntag => .error .broken
  | .lvaluetag => discard_default st
  | .uint8tag => discard_default st
  | .inttag => discard_default st
  | .int64tag => discard_default st
  | .floattag => discard_default st
  | .stringtag => discard_default st
  | .intarraytag => discard_default st
  | .iatemptag => discard_default st
  | .uint8arraytag => discard_default st
  | .u8atemptag => discard_default st
  | .int64arraytag => discard_default st
  | .i64atemptag => discard_default st
  | .floatarraytag => discard_default st
  | .fatemptag => discard_default st
  | .strarraytag => discard_default st
  | .satemptag => discard_default st
  | .whiletag => discard_default st
  | .repeattag => discard_default st
  | .intfortag => discard_default st
  | .int64fortag => discard_default st
  | .floatfortag => discard_default st
  | .opstacktag => discard_default st
  | .restarttag => discard_default st

lemma discard_ok_stack (st : BasicState) (rv : Bool) (st' : BasicState)
    (h : discardItem (GET_TOPITEM st) rv st = .ok st') :
    st'.stack = st.stack.tail := by
  obtain ⟨s, stk, eh, dc⟩ := st
  cases stk with
  | nil => simp [GET_TOPITEM, discardItem] at h
  | cons f rest =>
      cases f with
      | unknownf => simp [GET_TOPITEM, Frame.tag, discardItem] at h
      | localf lv sv =>
          simp only [GET_TOPITEM, Frame.tag, discardItem] at h
          cases rv with
          | false =>
              simp only [Bool.false_eq_true, if_false, dummyrestore, gt_iff_lt,
                Nat.lt_irrefl, Except.ok.injEq] at h
              simp [← h]
          | true =>
              simp only [if_true, restore] at h
              cases hr : restoreVar lv sv s with
              | error e => rw [hr] at h; simp [bind, Except.bind] at h
              | ok s2 =>
                  rw [hr] at h
                  simp only [bind, Except.bind, gt_iff_lt, Nat.lt_irrefl,
                    if_false, Except.ok.injEq] at h
                  simp [← h]
      | retparmf rd lv sv =>
          simp only [GET_TOPITEM, Frame.tag, discardItem, restore_retparm] at h
          cases hr : retparm_fetch lv sv s with
          | error e => rw [hr] at h; simp [bind, Except.bind] at h
          | ok c =>
              rw [hr] at h
              simp only [bind, Except.bind, gt_iff_lt, Nat.lt_irrefl, if_false] at h
              cases hs : retparm_storeback rd c.1 c.2 with
              | error e => rw [hs] at h; simp at h
              | ok s3 =>
                  rw [hs] at h
                  simp only [Except.ok.injEq] at h
                  simp [← h]
      | _ =>
          simp only [GET_TOPITEM, Frame.tag, discardItem, discard_default,
            pop_string, pop_gosub, pop_proc, pop_fn, pop_error, pop_data, bind,
            Except.bind, Except.ok.injEq] at h
          simp [← h]

lemma disposable_cons (st : BasicState)
    (hdis : disposable (GET_TOPITEM st) = true) : st.stack ≠ [] := by
  intro hnil
  rw [show GET_TOPITEM st = .unknowntag by rw [GET_TOPITEM, hnil]] at hdis
  exact absurd hdis (by decide)

/-- get_while from stack.c: return the first WHILE block on the stack,
discarding entries above it as long as they are disposable (performing
their cleanup through discardItem), or NIL (none) when a non-disposable
entry other than a WHILE block is met first. The returned state still
has the WHILE block on top, matching the C, where the caller later pops
it. -/
def get_while (st : BasicState) : Except Err (Option ((ℕ × ℕ) × BasicState)) :=
  match hdis : disposable (GET_TOPITEM st) with
  | false => .ok none
  | true =>
      match hd : discardItem (GET_TOPITEM st) true st with
      | .error e => .error e
      | .ok st1 =>
          match st1.stack with
          | Frame.whilef e a :: _ => .ok (some ((e, a), st1))
          | _ => get_while st1
  termination_by st.stack.length
  decreasing_by
    have h1 := discard_ok_stack st true st1 hd
    have h2 := disposable_cons st hdis
    rw [h1]
    cases hst : st.stack with
    | nil => exact absurd hst h2
    | cons f r => simp [hst]

/-- The WHILE-block location step of exec_endwhile (mainstate.c): use
the top of the stack when it is a WHILE block, otherwise search with
get_while, and raise ERR_NOTWHILE when no WHILE block was found. The
returned pair is (whilexpr, whileaddr) of the block, still on the stack. -/
def exec_endwhile_find (st : BasicState) : Except Err ((ℕ × ℕ) × BasicState) :=
  match st.stack with
  | Frame.whilef e a :: _ => .ok ((e, a), st)
  | _ => do
      let r ← get_while st
      match r with
      | some w => .ok w
      | none => .error .notwhile

/-- reset_stack from stack.c: discardItem entries (without restoring local
variables: discardItem is called with restorevars 0) until the stack pointer
reaches the snapshot newstacktop; a landing point that is neither the
snapshot nor the safe-stack bottom (the lone sentinel) raises
ERR_BROKEN. -/
def reset_stack (st : BasicState) (newstacktop : List Frame) :
    Except Err BasicState :=
  if h : st.stack.length > newstacktop.length then
    match hd : discardItem (GET_TOPITEM st) false st with
    | .error e => .error e
    | .ok st1 => reset_stack st1 newstacktop
  else
    if st.stack = newstacktop then .ok st
    else if st.stack = [Frame.unknownf] then .ok st
    else .error .broken
  termination_by st.stack.length
  decreasing_by
    have h1 := discard_ok_stack st false st1 hd
    rw [h1]
    cases hst : st.stack with
    | nil => rw [hst] at h; simp at h
    | cons f r => simp [hst]

/-- A store with all variables zero, an empty byte window and an empty
string heap (payload identifier 0 is reserved for the shared
empty-string literal nullstring). -/
def store0 : Store where
  ints := fun _ => 0
  bytes := fun _ => 0
  longs := fun _ => 0
  floats := fun _ => 0
  strs := fun _ => ⟨0, 0⟩
  arrs := fun _ => none
  descParent := fun _ => 0
  memory := []
  wordmem := fun _ => 0
  floatmem := fun _ => 0
  sheap := fun _ => []
  nextid := 1
  freed := []

/-- C1: executing ENDWHILE with an unterminated inner REPEAT above the
WHILE control block. The specification (and the comment block right
above exec_endwhile in mainstate.c) promise that the inner frame is
silently unwound and the ENDWHILE paired with the WHILE below it; the
code instead raises the "Not in a WHILE loop" error, because the
disposable table marks STACK_WHILE, STACK_REPEAT and the three FOR
kinds as non-disposable, so get_while stops at the REPEAT block and
returns NIL. This theorem evaluates the embedded code at that failing
input. -/
theorem endwhile_inner_repeat_raises_notwhile :
    exec_endwhile_find ⟨store0,
        [Frame.repeatf 5, Frame.whilef 2 3, Frame.unknownf], 0, 0⟩ =
      .error .notwhile := by
  simp only [exec_endwhile_find]
  rw [get_while]
  simp [GET_TOPITEM, Frame.tag, disposable, disposableTable, StackItem.code,
    bind, Except.bind]

/-- C2 counterexample: a LOCAL save block holding the saved value 7 for
the integer variable at slot 0 (whose current value is 3) is discarded
by reset_stack; the claim says the discarded LOCAL performs its normal
cleanup and restores the variable to 7, but reset_stack calls discard
with restorevars = 0, which routes LOCAL blocks to dummyrestore, so the
variable keeps the value 3. -/
theorem reset_stack_local_value_not_restored :
    (reset_stack ⟨{ store0 with ints := fun a => if a = 0 then 3 else 0 },
        [Frame.localf ⟨VarType.intword, 0⟩ (SavedVal.ival 7), Frame.unknownf],
        0, 0⟩
        [Frame.unknownf]).map (fun st => st.store.ints 0) = .ok 3 ∧
      (3 : ℤ) ≠ 7 := by
  constructor
  · simp [reset_stack, discardItem, dummyrestore, GET_TOPITEM, Frame.tag,
      bind, Except.bind, Except.map]
  · decide

lemma reset_stack_step (st : BasicState) (nt : List Frame)
    (h : st.stack.length > nt.length) (st1 : BasicState)
    (hd : discardItem (GET_TOPITEM st) false st = .ok st1) :
    reset_stack st nt = reset_stack st1 nt := by
  rw [reset_stack, dif_pos h]
  split
  · simp_all
  · simp_all

lemma reset_stack_done (st : BasicState) (nt : List Frame)
    (hlen : ¬(st.stack.length > nt.length)) (heq : st.stack = nt) :
    reset_stack st nt = .ok st := by
  rw [reset_stack, dif_neg hlen, if_pos heq]

/-- C2 as amended: when an error transfers control to the active
handler, reset_stack discards every frame above the snapshot captured
when the handler was installed and lands exactly on that snapshot; a
discarded STRTEMP frame frees its string payload and a discarded ERROR
frame restores the saved error handler, but a discarded LOCAL frame is
dropped WITHOUT restoring the saved variable (dummyrestore): every
variable map of the store is left untouched. -/
theorem reset_stack_cleanup (s : Store) (eh dc : ℕ) (d : BasicString)
    (lv : Lvalue) (sv : SavedVal) (hb : ℕ) (target : List Frame) :
    ∃ st1, reset_stack ⟨s, Frame.strtempf d :: Frame.localf lv sv ::
        Frame.errorf hb :: target, eh, dc⟩ target = .ok st1 ∧
      st1.stack = target ∧
      st1.error_handler = hb ∧
      st1.datacur = dc ∧
      st1.store.freed = d.stringaddr :: s.freed ∧
      st1.store.ints = s.ints ∧ st1.store.bytes = s.bytes ∧
      st1.store.longs = s.longs ∧ st1.store.floats = s.floats ∧
      st1.store.strs = s.strs ∧ st1.store.arrs = s.arrs ∧
      st1.store.memory = s.memory ∧ st1.store.wordmem = s.wordmem ∧
      st1.store.floatmem = s.floatmem := by
  refine ⟨⟨{ s with freed := d.stringaddr :: s.freed }, target, hb, dc⟩,
    ?_, rfl, rfl, rfl, rfl, rfl, rfl, rfl, rfl, rfl, rfl, rfl, rfl, rfl⟩
  rw [reset_stack_step _ _ (by simp only [List.length_cons]; omega)
    ⟨{ s with freed := d.stringaddr :: s.freed },
      Frame.localf lv sv :: Frame.errorf hb :: target, eh, dc⟩
    (by simp [GET_TOPITEM, Frame.tag, discardItem, pop_string, bind,
      Except.bind, free_string])]
  rw [reset_stack_step _ _ (by simp only [List.length_cons]; omega)
    ⟨{ s with freed := d.stringaddr :: s.freed },
      Frame.errorf hb :: target, eh, dc⟩
    (by simp [GET_TOPITEM, Frame.tag, discardItem, dummyrestore])]
  rw [reset_stack_step _ _ (by simp only [List.length_cons]; omega)
    ⟨{ s with freed := d.stringaddr :: s.freed }, target, hb, dc⟩
    (by simp [GET_TOPITEM, Frame.tag, discardItem, pop_error, bind,
      Except.bind])]
  exact reset_stack_done _ _ (by simp) rfl

/-- C2 witness at a concrete state: one STRTEMP, one LOCAL and one
ERROR frame above the bottom sentinel; the reset lands on the sentinel,
the payload with identifier 9 is freed, the handler becomes 4 and the
integer variable at slot 0 keeps its current value 3. -/
theorem reset_stack_cleanup_witness :
    ∃ st1, reset_stack ⟨{ store0 with ints := fun a => if a = 0 then 3 else 0 },
        Frame.strtempf ⟨2, 9⟩ :: Frame.localf ⟨VarType.intword, 0⟩
          (SavedVal.ival 7) :: Frame.errorf 4 :: [Frame.unknownf], 0, 0⟩
        [Frame.unknownf] = .ok st1 ∧
      st1.stack = [Frame.unknownf] ∧
      st1.error_handler = 4 ∧
      st1.store.freed = [9] ∧
      st1.store.ints 0 = 3 := by
  obtain ⟨st1, h1, h2, h3, _, h5, h6, _⟩ := reset_stack_cleanup
    { store0 with ints := fun a => if a = 0 then 3 else 0 } 0 0 ⟨2, 9⟩
    ⟨VarType.intword, 0⟩ (SavedVal.ival 7) 4 [Frame.unknownf]
  exact ⟨st1, h1, h2, h3, by rw [h5]; rfl, by rw [h6]; rfl⟩

/-- C7 as amended: among the pop functions of stack.c, only pop_int,
pop_uint8, pop_int64 and pop_float require the top tag to match and
raise the fatal engine error ERR_BROKEN on a mismatch; pop_proc, pop_fn
and pop_gosub check the tag but raise the statement errors ERR_ENDPROC,
ERR_FNRETURN and ERR_RETURN; pop_string, pop_while, pop_repeat,
pop_for, pop_data and pop_error perform no tag check at all and can
never raise an error. -/
theorem pop_functions_tag_checks (st : BasicState) :
    (GET_TOPITEM st ≠ .inttag → pop_int st = .error .broken) ∧
    (GET_TOPITEM st ≠ .uint8tag → pop_uint8 st = .error .broken) ∧
    (GET_TOPITEM st ≠ .int64tag → pop_int64 st = .error .broken) ∧
    (GET_TOPITEM st ≠ .floattag → pop_float st = .error .broken) ∧
    (GET_TOPITEM st ≠ .proctag → pop_proc st = .error .endprocmiss) ∧
    (GET_TOPITEM st ≠ .fntag → pop_fn st = .error .fnreturnmiss) ∧
    (GET_TOPITEM st ≠ .gosubtag → pop_gosub st = .error .returnmiss) ∧
    (∀ e, pop_string st ≠ .error e) ∧
    (∀ e, pop_while st ≠ .error e) ∧
    (∀ e, pop_repeat st ≠ .error e) ∧
    (∀ e, pop_for st ≠ .error e) ∧
    (∀ e, pop_data st ≠ .error e) ∧
    (∀ e, pop_error st ≠ .error e) := by
  refine ⟨?_, ?_, ?_, ?_, ?_, ?_, ?_, ?_, ?_, ?_, ?_, ?_, ?_⟩
  all_goals
    first
      | (intro h
         cases hst : st.stack with
         | nil => simp [pop_int, pop_uint8, pop_int64, pop_float, pop_proc,
             pop_fn, pop_gosub, hst]
         | cons f rest =>
             cases f <;> simp_all [pop_int, pop_uint8, pop_int64, pop_float,
               pop_proc, pop_fn, pop_gosub, GET_TOPITEM, Frame.tag, hst])
      | (intro e
         cases hst : st.stack with
         | nil => simp [pop_string, pop_while, pop_repeat, pop_for, pop_data,
             pop_error, hst]
         | cons f rest =>
             cases f <;> simp [pop_string, pop_while, pop_repeat, pop_for,
               pop_data, pop_error, hst])

/-- Witness for C7 at a concrete state whose top frame is a REPEAT
block: pop_int raises the fatal ERR_BROKEN, pop_proc raises ERR_ENDPROC
instead, and pop_while succeeds silently despite the mismatched tag. -/
theorem pop_functions_tag_checks_witness :
    pop_int ⟨store0, [Frame.repeatf 0, Frame.unknownf], 0, 0⟩ =
        .error .broken ∧
      pop_proc ⟨store0, [Frame.repeatf 0, Frame.unknownf], 0, 0⟩ =
        .error .endprocmiss ∧
      ∀ e, pop_while ⟨store0, [Frame.repeatf 0, Frame.unknownf], 0, 0⟩ ≠
        .error e := by
  obtain ⟨h1, _, _, _, h5, _, _, _, h9, _⟩ :=
    pop_functions_tag_checks ⟨store0, [Frame.repeatf 0, Frame.unknownf], 0, 0⟩
  exact ⟨h1 (by decide), h5 (by decide), h9⟩

/-- C7 counterexample: the claim as stated says every pop function
raises the fatal engine error on a mismatched top tag; pop_while on a
stack whose top is a REPEAT block instead succeeds and pops the frame. -/
theorem pop_while_mismatch_no_error :
    pop_while ⟨store0, [Frame.repeatf 0, Frame.unknownf], 0, 0⟩ =
      .ok ⟨store0, [Frame.unknownf], 0, 0⟩ := rfl

/-! ## The FOR statement (mainstate.c, exec_for)

The part of exec_for from the optional STEP clause onward is embedded:
the loop variable (whose VAR_UINT8 type was already rewritten to
VAR_INTWORD by the initial-value assignment switch of exec_for), the
body start address and the already-evaluated limit are parameters, and
the value the STEP expression evaluates to (pop_anynum64 for an integer
loop, pop_anynum also for a float loop) is passed in. The push_intfor,
push_int64for and push_floatfor calls of stack.c create the FOR control
block; the model's stack is unbounded, so their stack-full check cannot
fire and is omitted. -/

/-- The trailing part of exec_for: check an explicit zero STEP (the
"Silly" error), then create the FOR loop control block on the stack
with the simple-loop flag of the C (int32 variable with step one).
error() performs a longjmp, so on the Silly error no block is pushed. -/
def exec_for_tail (forvar : Lvalue) (bodyaddr : ℕ) (isinteger : Bool)
    (intlimit : ℤ) (floatlimit : ℚ) (hasStep : Bool) (stepIntVal : ℤ)
    (stepFloatVal : ℚ) (st : BasicState) : Except Err BasicState :=
  let defaults : ℤ × ℚ := (1, 1)
  do
    let steps ←
      if hasStep then
        if isinteger then
          if stepIntVal = 0 then Except.error Err.silly
          else Except.ok (stepIntVal, defaults.2)
        else
          if stepFloatVal = 0 then Except.error Err.silly
          else Except.ok (defaults.1, stepFloatVal)
      else Except.ok defaults
    if isinteger then
      let simple := decide (forvar.typeinfo = VarType.intword ∧ steps.1 = 1)
      match forvar.typeinfo with
      | VarType.intword =>
          .ok { st with stack :=
            Frame.intforf forvar bodyaddr intlimit steps.1 simple :: st.stack }
      | VarType.intlong =>
          .ok { st with stack :=
            Frame.int64forf forvar bodyaddr intlimit steps.1 simple :: st.stack }
      | _ => .error .broken
    else
      .ok { st with stack :=
        Frame.floatforf forvar bodyaddr floatlimit steps.2 false :: st.stack }

/-- C5: a FOR statement with an explicit STEP clause whose step
expression evaluates to zero (integer zero for an integer-typed loop
variable, zero for a float-typed one) raises the "Silly" error, and no
FOR control block is pushed on the value stack (the error aborts
exec_for before any push). -/
theorem for_step_zero_raises_silly (forvar : Lvalue) (bodyaddr : ℕ)
    (isinteger : Bool) (intlimit : ℤ) (floatlimit : ℚ) (stepIntVal : ℤ)
    (stepFloatVal : ℚ) (st : BasicState)
    (hzero : (isinteger = true ∧ stepIntVal = 0) ∨
      (isinteger = false ∧ stepFloatVal = 0)) :
    exec_for_tail forvar bodyaddr isinteger intlimit floatlimit true
      stepIntVal stepFloatVal st = .error .silly := by
  rcases hzero with ⟨hi, hz⟩ | ⟨hi, hz⟩ <;>
    simp [exec_for_tail, hi, hz, bind, Except.bind]

/-- Witness for C5: FOR I% = 1 TO 10 STEP 0 on an empty stack raises
Silly. -/
theorem for_step_zero_raises_silly_witness :
    exec_for_tail ⟨VarType.intword, 0⟩ 7 true 10 0 true 0 0
      ⟨store0, [Frame.unknownf], 0, 0⟩ = .error .silly :=
  for_step_zero_raises_silly ⟨VarType.intword, 0⟩ 7 true 10 0 0 0
    ⟨store0, [Frame.unknownf], 0, 0⟩ (Or.inl ⟨rfl, rfl⟩)

/-! ## LOCAL variables (mainstate.c, def_locvar and exec_local)

The switch of def_locvar that saves one variable onto the stack and
resets it is embedded per lvalue; the comma loop of def_locvar maps it
over the operand list. The procstack==NIL test at the head of
def_locvar is the inproc flag. exec_local's LOCAL ERROR and LOCAL DATA
branches push an ERROR or DATA frame instead and are embedded for
completeness. The save_int family of stack.c simply pushes a LOCAL
frame holding the lvalue and the value; the model's stack is unbounded,
so the stack-full check of those functions cannot fire and is omitted. -/

/-- One iteration of the def_locvar switch: push a LOCAL save frame
holding the variable's current value, then reset the variable (numeric
kinds and numeric indirection targets to zero, strings to the empty
string, the dollar-string window to a lone carriage return, arrays to
the NIL descriptor). VAR_INT64ARRAY is absent from the C case list and
falls into the ERR_BROKEN default. -/
def def_locvar_save (lv : Lvalue) (st : BasicState) : Except Err BasicState :=
  match lv.typeinfo with
  | .intword =>
      .ok { st with
        stack := Frame.localf lv (.ival (st.store.ints lv.addr)) :: st.stack
        store := { st.store with
          ints := fun a => if a = lv.addr then 0 else st.store.ints a } }
  | .uint8 =>
      .ok { st with
        stack := Frame.localf lv (.u8val (st.store.bytes lv.addr)) :: st.stack
        store := { st.store with
          bytes := fun a => if a = lv.addr then 0 else st.store.bytes a } }
  | .intlong =>
      .ok { st with
        stack := Frame.localf lv (.i64val (st.store.longs lv.addr)) :: st.stack
        store := { st.store with
          longs := fun a => if a = lv.addr then 0 else st.store.longs a } }
  | .float =>
      .ok { st with
        stack := Frame.localf lv (.fval (st.store.floats lv.addr)) :: st.stack
        store := { st.store with
          floats := fun a => if a = lv.addr then 0 else st.store.floats a } }
  | .stringdol =>
      .ok { st with
        stack := Frame.localf lv (.sval (st.store.strs lv.addr)) :: st.stack
        store := { st.store with
          strs := fun a => if a = lv.addr then ⟨0, 0⟩ else st.store.strs a } }
  | .intbyteptr =>
      .ok { st with
        stack := Frame.localf lv (.ival (st.store.memory.getD lv.addr 0)) ::
          st.stack
        store := { st.store with memory := st.store.memory.set lv.addr 0 } }
  | .intwordptr =>
      .ok { st with
        stack := Frame.localf lv (.ival (st.store.wordmem lv.addr)) :: st.stack
        store := { st.store with
          wordmem := fun a => if a = lv.addr then 0 else st.store.wordmem a } }
  | .floatptr =>
      .ok { st with
        stack := Frame.localf lv (.fval (st.store.floatmem lv.addr)) :: st.stack
        store := { st.store with
          floatmem := fun a => if a = lv.addr then 0 else st.store.floatmem a } }
  | .dolstrptr =>
      let len := get_stringlen st.store.memory lv.addr + 1
      let ns := alloc_string (readBytes st.store.memory lv.addr len) st.store
      .ok { st with
        stack := Frame.localf lv (.sval ⟨len, ns.1⟩) :: st.stack
        store := { ns.2 with memory := ns.2.memory.set lv.addr 13 } }
  | .intarray =>
      .ok { st with
        stack := Frame.localf lv (.aval (st.store.arrs lv.addr)) :: st.stack
        store := { st.store with
          arrs := fun a => if a = lv.addr then none else st.store.arrs a } }
  | .uint8array =>
      .ok { st with
        stack := Frame.localf lv (.aval (st.store.arrs lv.addr)) :: st.stack
        store := { st.store with
          arrs := fun a => if a = lv.addr then none else st.store.arrs a } }
  | .floatarray =>
      .ok { st with
        stack := Frame.localf lv (.aval (st.store.arrs lv.addr)) :: st.stack
        store := { st.store with
          arrs := fun a => if a = lv.addr then none else st.store.arrs a } }
  | .strarray =>
      .ok { st with
        stack := Frame.localf lv (.aval (st.store.arrs lv.addr)) :: st.stack
        store := { st.store with
          arrs := fun a => if a = lv.addr then none else st.store.arrs a } }
  | .int64array => .error .broken

/-- The comma loop of def_locvar over its operand list. -/
def def_locvar_list : List Lvalue → BasicState → Except Err BasicState
  | [], st => .ok st
  | lv :: rest, st => do
      let st1 ← def_locvar_save lv st
      def_locvar_list rest st1

/-- def_locvar from mainstate.c: LOCAL with variable operands raises
ERR_LOCAL outside a PROC or FN (procstack == NIL, here the inproc
flag), otherwise saves and resets each operand in turn. -/
def def_locvar (inproc : Bool) (lvs : List Lvalue) (st : BasicState) :
    Except Err BasicState :=
  if inproc then def_locvar_list lvs st else .error .localmiss

/-- exec_local from mainstate.c: LOCAL ERROR pushes an ERROR frame
saving the current handler, LOCAL DATA pushes a DATA frame saving the
current DATA pointer, and any other operand goes to def_locvar. -/
inductive LocalOperand where
  | errorop
  | dataop
  | varops (lvs : List Lvalue)

/-- exec_local dispatch (the embedded statement bodies). -/
def exec_local (inproc : Bool) (op : LocalOperand) (st : BasicState) :
    Except Err BasicState :=
  match op with
  | .errorop => .ok { st with stack := Frame.errorf st.error_handler :: st.stack }
  | .dataop => .ok { st with stack := Frame.dataf st.datacur :: st.stack }
  | .varops lvs => def_locvar inproc lvs st

/-- The saved value def_locvar records for an lvalue: the variable's
current value (for the dollar-string window, a fresh copy of the window
contents including the terminating carriage return). -/
def localSavedVal (lv : Lvalue) (st : BasicState) : SavedVal :=
  match lv.typeinfo with
  | .intword => .ival (st.store.ints lv.addr)
  | .uint8 => .u8val (st.store.bytes lv.addr)
  | .intlong => .i64val (st.store.longs lv.addr)
  | .float => .fval (st.store.floats lv.addr)
  | .stringdol => .sval (st.store.strs lv.addr)
  | .intbyteptr => .ival (st.store.memory.getD lv.addr 0)
  | .intwordptr => .ival (st.store.wordmem lv.addr)
  | .floatptr => .fval (st.store.floatmem lv.addr)
  | .dolstrptr =>
      .sval ⟨get_stringlen st.store.memory lv.addr + 1, st.store.nextid⟩
  | _ => .aval (st.store.arrs lv.addr)

/-- The reset def_locvar performs on the variable itself: zero for
numeric kinds (including indirection targets), the empty string for
string variables, a lone carriage return (the empty dollar string) for
dollar-string windows, the NIL descriptor for arrays. -/
def localZeroed (lv : Lvalue) (st1 : BasicState) : Prop :=
  match lv.typeinfo with
  | .intword => st1.store.ints lv.addr = 0
  | .uint8 => st1.store.bytes lv.addr = 0
  | .intlong => st1.store.longs lv.addr = 0
  | .float => st1.store.floats lv.addr = 0
  | .stringdol => st1.store.strs lv.addr = ⟨0, 0⟩
  | .intbyteptr => st1.store.memory.getD lv.addr 0 = 0
  | .intwordptr => st1.store.wordmem lv.addr = 0
  | .floatptr => st1.store.floatmem lv.addr = 0
  | .dolstrptr => st1.store.memory.getD lv.addr 0 = 13
  | .intarray => st1.store.arrs lv.addr = none
  | .uint8array => st1.store.arrs lv.addr = none
  | .floatarray => st1.store.arrs lv.addr = none
  | .strarray => st1.store.arrs lv.addr = none
  | .int64array => False

/-- The side conditions under which the reset is observable: the lvalue
kind must be in the C case list (VAR_INT64ARRAY is not), and an
indirection target must lie inside the byte window. -/
def localKindOk (lv : Lvalue) (st : BasicState) : Prop :=
  match lv.typeinfo with
  | .int64array => False
  | .intbyteptr => lv.addr < st.store.memory.length
  | .dolstrptr => lv.addr < st.store.memory.length
  | _ => True

/-- C10 (amended): inside a PROC or FN, LOCAL v for a variable operand
pushes a save frame holding v's current value and immediately resets v
itself: numeric variables and numeric indirection targets to zero,
string variables to the empty string, array variables to the NIL
descriptor — except 64-bit integer arrays, which are absent from the C
case list of def_locvar and fall into its fatal ERR_BROKEN default, so
localKindOk excludes them; outside any PROC or FN the statement raises
ERR_LOCAL. -/
theorem local_variable_saved_and_zeroed (inproc : Bool) (lv : Lvalue)
    (st : BasicState) :
    (inproc = false → exec_local false (.varops [lv]) st = .error .localmiss) ∧
    (localKindOk lv st → ∃ st1,
      exec_local true (.varops [lv]) st = .ok st1 ∧
      st1.stack = Frame.localf lv (localSavedVal lv st) :: st.stack ∧
      localZeroed lv st1) := by
  constructor
  · intro hin
    simp [exec_local, def_locvar]
  · intro hok
    obtain ⟨ti, a⟩ := lv
    cases ti <;>
      simp_all [exec_local, def_locvar, def_locvar_list, def_locvar_save,
        localSavedVal, localZeroed, localKindOk, bind, Except.bind,
        alloc_string, List.getD_eq_getElem?_getD, List.getElem?_set_eq_of_lt]

/-- Witness for C10: LOCAL on the integer variable at slot 2 holding
value 42: the save frame records 42 and the variable becomes zero; the
same statement outside a PROC raises ERR_LOCAL. -/
theorem local_variable_saved_and_zeroed_witness :
    (exec_local false (.varops [⟨VarType.intword, 2⟩])
        ⟨{ store0 with ints := fun a => if a = 2 then 42 else 0 },
          [Frame.unknownf], 0, 0⟩ = .error .localmiss) ∧
    ∃ st1, exec_local true (.varops [⟨VarType.intword, 2⟩])
        ⟨{ store0 with ints := fun a => if a = 2 then 42 else 0 },
          [Frame.unknownf], 0, 0⟩ = .ok st1 ∧
      st1.stack = [Frame.localf ⟨VarType.intword, 2⟩ (SavedVal.ival 42),
        Frame.unknownf] ∧
      st1.store.ints 2 = 0 := by
  obtain ⟨h1, h2⟩ := local_variable_saved_and_zeroed false ⟨VarType.intword, 2⟩
    ⟨{ store0 with ints := fun a => if a = 2 then 42 else 0 },
      [Frame.unknownf], 0, 0⟩
  obtain ⟨h1b, h2b⟩ := local_variable_saved_and_zeroed true ⟨VarType.intword, 2⟩
    ⟨{ store0 with ints := fun a => if a = 2 then 42 else 0 },
      [Frame.unknownf], 0, 0⟩
  obtain ⟨st1, hs1, hs2, hs3⟩ := h2b (by constructor)
  refine ⟨h1 rfl, st1, hs1, ?_, hs3⟩
  rw [hs2]
  rfl

/-! ## SWAP (mainstate.c, exec_swap)

The three numeric switches of exec_swap are embedded as fetch,
fetch-and-store, and store-back steps threaded through the isint flag
and the ival/fval pair, exactly as the C; assignments of the 64-bit
ival into narrower cells wrap (wrap32 and wrap8), mirroring the C's
implicit conversions. The string branch covers both ordinary string
descriptors and dollar-string windows; the array branch swaps the
descriptor pointers of the two parent variables and then swaps the
parent back-references, dereferencing NIL descriptors being undefined
behaviour mapped to a nullderef error. -/

/-- MAXDIMS of basicdefs.h (outside the supplied sources): the greatest
number of array dimensions accepted. Modelled from the spec: arrays
have a bounded number of dimensions; the bound's value is irrelevant to
the claims, only its existence. -/
def MAXDIMS : ℕ := 10

/-- One element's size in bytes per array kind, the first switch of
define_array; a string array may not be placed off-heap. -/
def elemsizeOf (t : VarType) (offheap : Bool) : Except Err ℕ :=
  match t with
  | .intarray => .ok 4
  | .uint8array => .ok 1
  | .int64array => .ok 8
  | .floatarray => .ok 8
  | .strarray => if offheap then .error .numarray else .ok 16
  | _ => .error .broken

/-- The dimension loop of define_array over the evaluated dimension
expressions: a negative bound raises ERR_NEGDIM before anything is
allocated; each bound contributes highindex+1 to the element count. -/
def collect_dims : List ℤ → ℕ → ℕ → Except Err (ℕ × ℕ)
  | [], dimcount, size => .ok (dimcount, size)
  | hi :: rest, dimcount, size =>
      if hi < 0 then .error .negdim
      else if dimcount > MAXDIMS then .error .dimcount
      else collect_dims rest (dimcount + 1) (size * (hi + 1).toNat)

/-- define_array from variables.c, over already evaluated dimension
expressions: the element size switch, the dimension loop, the
no-dimensions check; on success the descriptor records the dimension
count and size times elemsize bytes are allocated for the elements. -/
def define_array (t : VarType) (offheap : Bool) (dims : List ℤ) :
    Except Err (ℕ × ℕ) :=
  match elemsizeOf t offheap with
  | .error e => .error e
  | .ok esz =>
      match collect_dims dims 0 1 with
      | .error e => .error e
      | .ok (dimcount, size) =>
          if dimcount = 0 then .error .synerr
          else .ok (dimcount, size * esz)

/-- define_byte_array from mainstate.c on the plain path (no
indirection operator, not LOCAL, not HIMEM), over the evaluated size
expression: the variable kind checks, the size range check, the
highindex = -1 special case that stores vartop without allocating, and
the MATRIX64BIT address guard for 32-bit integer variables. Returns the
address stored into the variable and the number of bytes allocated. -/
def define_byte_array (t : VarType) (vartop stacklimit : ℕ) (hi : ℤ) :
    Except Err (ℕ × ℕ) :=
  if t = .uint8 then .error .unsuitablevar
  else if t ≠ .intword ∧ t ≠ .intlong ∧ t ≠ .float then .error .varnum
  else if hi < -1 then .error .negbytedim
  else if hi = -1 then
    if t = .intword ∧ vartop > 0xFFFFFFFF then .error .addrerr
    else .ok (vartop, 0)
  else
    if t = .intword ∧ (stacklimit : ℤ) + hi + 1 > 0xFFFFFFFF then
      .error .addrerr
    else .ok (vartop, (hi + 1).toNat)

/-- C9 counterexample: the array form DIM arr(-1) does not succeed; the
dimension loop of define_array raises the negative-dimension error for
the bound -1, so nothing is allocated and no address is stored. -/
theorem dim_paren_neg_one_raises_negdim :
    define_array VarType.intarray false [-1] = .error .negdim := rfl

/-- C9 (amended): only the byte-block form DIM arr -1 succeeds with a
size of -1: define_byte_array treats highindex = -1 as a special case
that allocates zero bytes and stores vartop, a valid address at the top
of the Basic workspace, into the numeric variable, while the array form
DIM arr(-1) raises the Negative array dimension error in define_array.
(For a 32-bit integer variable the address must fit in 32 bits.) -/
theorem dim_byte_neg_one_allocates_zero (t : VarType) (vartop stacklimit : ℕ)
    (ht : t = .intword ∨ t = .intlong ∨ t = .float)
    (hv : vartop ≤ 0xFFFFFFFF) :
    define_byte_array t vartop stacklimit (-1) = .ok (vartop, 0) := by
  have hv2 : ¬ vartop > 0xFFFFFFFF := by omega
  rcases ht with rfl | rfl | rfl <;> simp [define_byte_array, hv2]

/-- Witness for the amended DIM claim at a concrete variable kind and
workspace top. -/
theorem dim_byte_neg_one_allocates_zero_witness :
    (VarType.intword = VarType.intword ∨ VarType.intword = VarType.intlong ∨
        VarType.intword = VarType.float) ∧
      (100 : ℕ) ≤ 0xFFFFFFFF ∧
      define_byte_array VarType.intword 100 0 (-1) = .ok (100, 0) :=
  ⟨Or.inl rfl, by decide,
    dim_byte_neg_one_allocates_zero VarType.intword 100 0 (Or.inl rfl)
      (by decide)⟩

/-- A state inside a PROC whose 64-bit integer array variable at slot 0
holds a live descriptor. -/
def localCexState : BasicState :=
  ⟨{ store0 with arrs := fun a => if a = 0 then some 0 else none },
    [Frame.unknownf], 0, 0⟩

/-- C10 counterexample: inside a PROC, LOCAL on a 64-bit integer array
variable does not save and null its descriptor; VAR_INT64ARRAY is
missing from the case list of def_locvar, so the statement falls into
the default arm and raises the fatal engine error ERR_BROKEN, leaving
no saved frame at all. -/
theorem local_int64array_raises_broken :
    exec_local true (.varops [⟨VarType.int64array, 0⟩]) localCexState =
      .error .broken ∧
    localCexState.store.arrs 0 = some 0 :=
  ⟨rfl, rfl⟩
